import Mathlib

/-!
Verification of the searchable-index core of the inbest-hub repository.

The development shallowly embeds two Python modules:

* `services/chat-api/services/search_service.py` — the query ranker
  (`SearchService`): query building, hard filters, weighted scoring and
  the final sort.
* `services/embedding-service/services/embedding_service.py` — the index
  side (`EmbeddingService`): search-text composition, metadata building,
  `index_project`, vector search with threshold filtering, and the bulk
  resync `sync_all_projects`.

Modelling conventions:

* Python floats are modelled as exact rationals (`ℚ`); the weight
  literals `0.4`, `0.25`, ... become `2/5`, `1/4`, ....  `round(x, 3)`
  is modelled by `round3` (round half up at the third decimal; the
  claims under study never hit an exact half-thousandth tie, where
  CPython would round half to even on the binary value).
* JSON dictionaries become structures.  A field read with
  `d.get(key, default)` is an `Option` field read with `Option.getD`.
  Where the code distinguishes a *missing* key from a key that is
  present with a non-dict value (`unit_info`), an explicit inductive
  with `missing` / `null` / value constructors is used.
* Network effects are parameters: the embedding-backend HTTP response,
  the hydration function, the owner lookup and the embedding model are
  arguments of the embedded functions, so that each function is total
  and executable.
* The vector store (ChromaDB collection) is an association list keyed
  by the document id.  `collection.add` with an id that already exists
  logs a warning and leaves the stored entry untouched (it neither
  overwrites nor raises); `Collection.add` models exactly that.
* Unit counts are `ℕ` (the canonical projects-service validates
  `total_units`/`available_units` to be non-negative before they can
  reach either module).
-/

/-! ### Generic helpers -/

/-- Round half up at the third decimal: models Python `round(x, 3)`. -/
def round3 (q : ℚ) : ℚ := (⌊q * 1000 + 1/2⌋ : ℤ) / 1000

/-- Python `min(list)`; the empty case is unreachable behind the guards in
the source, which supply `0.0` there via a conditional expression. -/
def pyMinL (l : List ℚ) : ℚ :=
  match l with
  | [] => 0
  | h :: t => t.foldl min h

/-- Python `max(list)`, same conventions as `pyMinL`. -/
def pyMaxL (l : List ℚ) : ℚ :=
  match l with
  | [] => 0
  | h :: t => t.foldl max h

/-- Substring test on character lists: `needle` occurs contiguously in
`hay`.  Models the Python `in` operator on strings. -/
def listContainsSub (hay needle : List Char) : Bool :=
  (List.range (hay.length + 1)).any fun i => needle.isPrefixOf (hay.drop i)

/-- Python `needle in hay` for strings. -/
def strContains (hay needle : String) : Bool :=
  listContainsSub hay.data needle.data

/-- Python `str.lower()` (ASCII case folding suffices for the modelled data). -/
def pyLower (s : String) : String := ⟨s.data.map Char.toLower⟩

/-- Python `str.split()` with no argument: split on whitespace runs,
dropping empty pieces. -/
def pySplitWS (s : String) : List String :=
  (s.split (· = ' ')).filter (· ≠ "")

/-- Python `str.strip()` restricted to the space character, which is the
only whitespace the composed strings contain. -/
def pyStrip (s : String) : String :=
  ⟨((s.data.dropWhile (· = ' ')).reverse.dropWhile (· = ' ')).reverse⟩

/-- Rendering of a number inside a composed string.  The exact float
formatting of CPython is irrelevant to every claim; any fixed
deterministic rendering is faithful. -/
def ratStr (q : ℚ) : String := toString q

/-- `json.dumps` on a list of strings, up to escaping (the claims only
need determinism and non-nullness of the rendered value). -/
def jsonArr (l : List String) : String :=
  "[" ++ String.intercalate ", " (l.map fun s => "\x22" ++ s ++ "\x22") ++ "]"

/-! ### Chat-api data model (`search_service.py`)

A `Project` is the JSON object returned by the projects-service
hydration endpoint, restricted to the keys the ranking code reads,
plus the `search_score` / `similarity` keys that
`_get_project_details` grafts onto it. -/

/-- The `location` value of a hydrated project: missing key, a plain
string (legacy schema) or an object with `city` / `department`.
A city or department that is JSON-null renders through the Python
f-string as the text `None`; such values are subsumed by arbitrary
strings here. -/
inductive LocField where
  | missing : LocField
  | str (s : String) : LocField
  | obj (city department : String) : LocField
deriving DecidableEq, Repr

/-- The `unit_info` value of a hydrated project: missing key, JSON null
(or any non-dict value), or a dict whose two integer keys may each be
absent. -/
inductive UnitField where
  | missing : UnitField
  | null : UnitField
  | obj (available_units total_units : Option ℕ) : UnitField
deriving DecidableEq, Repr

/-- The `price_info` dict; only `min_price` is ever read by the chat-api. -/
structure PriceField where
  min_price : Option ℚ
deriving DecidableEq, Repr

/-- A hydrated project as consumed by `_apply_filters` / `_rank_projects`.
`price_info = none` covers both a missing key and a non-dict value
(both paths yield price `0` in `_get_project_price`); `amenities`
covers missing and non-list values by `[]`. -/
structure Project where
  id : ℤ
  price_info : Option PriceField
  amenities : List String
  location : LocField
  unit_info : UnitField
  search_score : ℚ
  similarity : ℚ
deriving DecidableEq, Repr

/-- The `price_range` filter dict; a missing `min` key defaults to `0`
and a missing `max` key to `float(\x27inf\x27)`, modelled as `none`. -/
structure PriceRangeF where
  min : Option ℚ
  max : Option ℚ
deriving DecidableEq, Repr

/-- The filter dict produced by intent extraction.  `none` for a string
field also covers a supplied empty string, and `none` for
`price_range` also covers a supplied empty dict: both are falsy in
the `filters.get(...)` truthiness checks of the source. -/
structure Filters where
  query : Option String
  location : Option String
  property_type : Option String
  amenities : Option (List String)
  price_range : Option PriceRangeF
deriving DecidableEq, Repr

/-- Truthiness of an optional string (`None` and `""` are falsy). -/
def strTruthy (o : Option String) : Bool :=
  match o with
  | none => false
  | some s => s ≠ ""

/-- Truthiness of an optional string list (`None` and `[]` are falsy). -/
def listTruthy (o : Option (List String)) : Bool :=
  match o with
  | none => false
  | some l => !l.isEmpty

/-- `project_price <= max_price` where a missing `max` key defaulted to
`float(\x27inf\x27)`: the comparison is then always true. -/
def leMaxB (p : ℚ) (mx : Option ℚ) : Bool :=
  match mx with
  | none => true
  | some m => p ≤ m

/-! ### Chat-api: query building and accessors -/

/-- `SearchService._build_search_query`. -/
def buildSearchQuery (f : Filters) : String :=
  let locPart := if strTruthy f.location then ["ubicado en " ++ f.location.getD ""] else []
  let typePart := if strTruthy f.property_type then ["tipo " ++ f.property_type.getD ""] else []
  let amenPart :=
    match f.amenities with
    | some l => if !l.isEmpty then ["con amenities: " ++ String.intercalate ", " l] else []
    | none => []
  let pricePart :=
    match f.price_range with
    | some pr =>
        ["precio entre " ++ ratStr (pr.min.getD 0) ++ " y " ++
          (match pr.max with | some m => ratStr m | none => "inf")]
    | none => []
  let queryPart := if strTruthy f.query then [f.query.getD ""] else []
  let parts := queryPart ++ locPart ++ typePart ++ amenPart ++ pricePart
  if parts.isEmpty then "proyectos inmobiliarios" else String.intercalate " " parts

/-- `SearchService._get_project_price`: `price_info.get("min_price", 0)`,
`0` when `price_info` is missing or not a dict. -/
def getProjectPrice (p : Project) : ℚ :=
  match p.price_info with
  | some pi => pi.min_price.getD 0
  | none => 0

/-- `SearchService._get_project_amenities`. -/
def getProjectAmenities (p : Project) : List String := p.amenities

/-- `SearchService._get_project_location`: for a dict,
`f"{city} {department}".strip()`; for a plain value, `str(location)`;
a missing key gives the empty dict and hence the empty string. -/
def getProjectLocation (p : Project) : String :=
  match p.location with
  | .missing => pyStrip (" ")
  | .str s => s
  | .obj city department => pyStrip (city ++ " " ++ department)

/-! ### Chat-api: hard filters -/

/-- Price stage of `_apply_filters`: range containment on the project
minimum price, with defaults `min = 0`, `max = inf`. -/
def filterPriceStage (prf : Option PriceRangeF) (projects : List Project) : List Project :=
  match prf with
  | none => projects
  | some pr =>
      projects.filter fun p =>
        decide (pr.min.getD 0 ≤ getProjectPrice p) && leMaxB (getProjectPrice p) pr.max

/-- Amenities stage of `_apply_filters`: ALL required amenities must be
present.  A falsy filter (absent or `[]`) is neutral; a non-list value
is also neutral in the source (the `isinstance` guard), which the
intent-extraction schema never produces. -/
def filterAmenStage (amf : Option (List String)) (projects : List Project) : List Project :=
  if listTruthy amf then
    projects.filter fun p =>
      (amf.getD []).all fun a => decide (a ∈ getProjectAmenities p)
  else projects

/-- Location stage of `_apply_filters`: case-insensitive substring match. -/
def filterLocStage (lof : Option String) (projects : List Project) : List Project :=
  if strTruthy lof then
    projects.filter fun p =>
      strContains (pyLower (getProjectLocation p)) (pyLower (lof.getD ""))
  else projects

/-- `SearchService._apply_filters`: price, then amenities, then location. -/
def applyFilters (projects : List Project) (f : Filters) : List Project :=
  filterLocStage f.location (filterAmenStage f.amenities (filterPriceStage f.price_range projects))

/-! ### Chat-api: component scores and ranking -/

/-- `SearchService._calculate_location_score`. -/
def calcLocationScore (p : Project) (f : Filters) : ℚ :=
  if !strTruthy f.location then 1/2
  else
    let projectLocation := pyLower (getProjectLocation p)
    let filterLocation := pyLower (f.location.getD "")
    if strContains projectLocation filterLocation then 1
    else if (pySplitWS filterLocation).any (fun w => strContains projectLocation w) then 7/10
    else 3/10

/-- `SearchService._calculate_price_score`. -/
def calcPriceScore (p : Project) (f : Filters) : ℚ :=
  match f.price_range with
  | none => 1/2
  | some pr =>
      let projectPrice := getProjectPrice p
      if pr.min.getD 0 ≤ projectPrice ∧ leMaxB projectPrice pr.max then 1
      else if projectPrice < pr.min.getD 0 then 3/10
      else 1/10

/-- `SearchService._calculate_amenities_score`: fraction of required
amenities present, capped at `1.0`; `0.5` for a falsy filter. -/
def calcAmenitiesScore (p : Project) (f : Filters) : ℚ :=
  match f.amenities with
  | none => 1/2
  | some req =>
      if req.isEmpty then 1/2
      else min ((req.countP fun a => decide (a ∈ getProjectAmenities p)) / (req.length : ℚ)) 1

/-- `SearchService._calculate_availability_score`.  A missing `unit_info`
key yields the empty dict, hence defaults `available = 0`, `total = 1`
and score `0`; a null (non-dict) value yields `0.5`; inside a dict the
fields default to `0` and `1`, the score is `available/total` capped at
`1.0` when `total > 0` and `0.5` otherwise. -/
def calcAvailabilityScore (p : Project) : ℚ :=
  match p.unit_info with
  | .missing =>
      let available : ℕ := 0
      let total : ℕ := 1
      if 0 < total then min ((available : ℚ) / (total : ℚ)) 1 else 1/2
  | .null => 1/2
  | .obj available total =>
      let a : ℕ := available.getD 0
      let t : ℕ := total.getD 1
      if 0 < t then min ((a : ℚ) / (t : ℚ)) 1 else 1/2

/-- The raw weighted sum computed in `_rank_projects` before rounding. -/
def rawScore (p : Project) (f : Filters) : ℚ :=
  p.search_score * (2/5) + calcLocationScore p f * (1/4) + calcPriceScore p f * (1/5)
    + calcAmenitiesScore p f * (1/10) + calcAvailabilityScore p * (1/20)

/-- `project["final_score"] = round(final_score, 3)`. -/
def finalScore (p : Project) (f : Filters) : ℚ := round3 (rawScore p f)

/-- A project dict after `_rank_projects` set its `final_score` key. -/
structure Scored where
  proj : Project
  final_score : ℚ
deriving DecidableEq, Repr

/-- The sort relation of `_rank_projects`: descending `final_score`.
Python `sorted(..., reverse=True)` is stable; `List.insertionSort`
with this relation has the same output (it places an earlier element
before any equal-scored later element). -/
def rankLE (a b : Scored) : Prop := b.final_score ≤ a.final_score

instance : DecidableRel rankLE := fun a b =>
  inferInstanceAs (Decidable (b.final_score ≤ a.final_score))

instance : IsTotal Scored rankLE := ⟨fun a b => le_total b.final_score a.final_score⟩

instance : IsTrans Scored rankLE := ⟨fun _ _ _ hab hbc => le_trans hbc hab⟩

/-- `SearchService._rank_projects`: attach the rounded weighted score to
every candidate, then sort by it descending (stable). -/
def rankProjects (projects : List Project) (f : Filters) : List Scored :=
  List.insertionSort rankLE (projects.map fun p => ⟨p, finalScore p f⟩)

/-! ### Chat-api: backend call, hydration and the full search pipeline -/

/-- One element of the `results` array in the embedding-service `/search`
response body, as read by the chat-api with `result.get(...)`.  The
real payload of the embedding service carries no top-level
`project_id` key (only `id`, `score`, `metadata`, `document`), so in
integration `project_id` is always `none`; the dict model keeps the
key optional exactly as the chat-api reads it. -/
structure SearchHit where
  project_id : Option ℤ
  score : Option ℚ
  similarity : Option ℚ
deriving DecidableEq, Repr

/-- `SearchService._search_embedding_service`.  The HTTP outcome is the
argument: `some (code, body)` is a response with status `code` whose
JSON `results` key holds `body`; `none` is a raised transport error.
Any outcome other than a 200 response is logged and turned into `[]`. -/
def searchEmbeddingService (resp : Option (ℕ × List SearchHit)) : List SearchHit :=
  match resp with
  | some (code, body) => if code = 200 then body else []
  | none => []

/-- `SearchService._get_project_details`.  `hydrate` is the
projects-service `GET /projects/{id}` call: `none` for a non-200
response or a transport error (the record is skipped), `some` for the
hydrated project.  A hit whose `project_id` is absent or `0` (falsy)
is dropped when collecting ids; the score of the first hit with a
matching id is grafted onto the hydrated record. -/
def getProjectDetails (hydrate : ℤ → Option Project) (hits : List SearchHit) : List Project :=
  let projectIds := hits.filterMap fun h =>
    match h.project_id with
    | some i => if i = 0 then none else some i
    | none => none
  if projectIds.isEmpty then []
  else
    projectIds.filterMap fun pid =>
      match hydrate pid with
      | some proj =>
          let hit := hits.find? fun h => h.project_id = some pid
          some { proj with
                  search_score := (hit.bind (·.score)).getD 0,
                  similarity := (hit.bind (·.similarity)).getD 0 }
      | none => none

/-- `SearchService.search_projects`: build the composite query, call the
embedding backend, return `[]` on an empty result, hydrate, hard-filter
and rank.  The outer `except` of the source never fires in the modelled
universe (every step is total); its effect — collapsing failures to
`[]` — is already in the failure cases of the steps. -/
def searchProjects (filters : Filters) (resp : Option (ℕ × List SearchHit))
    (hydrate : ℤ → Option Project) : List Scored :=
  let _query := buildSearchQuery filters
  let searchResults := searchEmbeddingService resp
  if searchResults.isEmpty then []
  else
    let projectsWithDetails := getProjectDetails hydrate searchResults
    let filteredProjects := applyFilters projectsWithDetails filters
    rankProjects filteredProjects filters

/-! ### Embedding-service data model (`embedding_service.py`) -/

/-- A scalar metadata value as stored with a document.  ChromaDB accepts
strings, ints and floats; `null` is what the non-null invariants rule
out. -/
inductive MetaValue where
  | s (v : String) : MetaValue
  | i (v : ℤ) : MetaValue
  | f (v : ℚ) : MetaValue
  | null : MetaValue
deriving DecidableEq, Repr

/-- One stored document of a vector collection. -/
structure Entry where
  embedding : List ℚ
  document : String
  metadata : List (String × MetaValue)
deriving DecidableEq, Repr

/-- A ChromaDB collection: an association list keyed by document id. -/
structure Collection where
  entries : List (String × Entry)
deriving DecidableEq, Repr

def Collection.keys (c : Collection) : List String := c.entries.map Prod.fst

/-- `collection.add(ids=[id], ...)`: ChromaDB ignores an id that already
exists in the collection (it logs an insert-of-existing-id warning and
keeps the stored entry; it does not overwrite and does not raise).
A fresh id is appended. -/
def Collection.add (c : Collection) (id : String) (e : Entry) : Collection :=
  if id ∈ c.keys then c else ⟨c.entries ++ [(id, e)]⟩

/-- `collection.count()`. -/
def Collection.count (c : Collection) : ℕ := c.entries.length

/-- Well-formedness: one entry per id. -/
def Collection.wf (c : Collection) : Prop := c.keys.Nodup

/-- `ProjectOwner` (pydantic): `name` and `email` are required fields. -/
structure ProjectOwner where
  name : String
  email : String
deriving DecidableEq, Repr

/-- The `ProjectStatus` str-enum of the embedding-service schemas. -/
inductive ProjectStatus where
  | incompleto | en_proceso | completo | inactivo | archivado
deriving DecidableEq, Repr

/-- `status.value` for the str-enum. -/
def statusValue (s : ProjectStatus) : String :=
  match s with
  | .incompleto => "incompleto"
  | .en_proceso => "en_proceso"
  | .completo => "completo"
  | .inactivo => "inactivo"
  | .archivado => "archivado"

/-- `LocationSchema` (country is never read). -/
structure ESLocation where
  address : Option String
  city : Option String
  department : Option String
deriving DecidableEq, Repr

/-- `PriceInfoSchema` (currency and price_per_m2 are never read). -/
structure ESPriceInfo where
  min_price : Option ℚ
  max_price : Option ℚ
deriving DecidableEq, Repr

/-- One value of the `areas` dict: the `min` / `max` keys may be absent. -/
structure AreaInfo where
  min : Option ℚ
  max : Option ℚ
deriving DecidableEq, Repr

/-- `UnitInfoSchema`; the `areas` dict iterates in insertion order, hence
a list of pairs. -/
structure ESUnitInfo where
  total_units : Option ℕ
  available_units : Option ℕ
  unit_types : Option (List String)
  areas : Option (List (String × AreaInfo))
deriving DecidableEq, Repr

/-- `RealEstateProject` (pydantic), restricted to the fields the
embedding service reads.  Every attribute exists on a pydantic
instance, so each `hasattr(project, field)` in the source is `True`
and the guards reduce to truthiness of the field value. -/
structure RealEstateProject where
  id : Option ℤ
  name : String
  description : Option String
  project_owner_nit : Option String
  location : Option ESLocation
  price_info : Option ESPriceInfo
  unit_info : Option ESUnitInfo
  amenities : Option (List String)
  status : Option ProjectStatus
  city : Option String
  state : Option String
  property_type : Option String
  total_units : Option ℕ
  available_units : Option ℕ
  price_range_min : Option ℚ
  price_range_max : Option ℚ
  area_range_min : Option ℚ
  area_range_max : Option ℚ
  construction_company_nit : Option String
deriving DecidableEq, Repr

/-! ### Embedding-service: search-text composition

`EmbeddingService.create_project_search_text`.  The parts are collected
in source order; Python `" ".join(filter(None, text_parts))` drops the
falsy parts (`None` and `""`, both rendered `""` here) and the final
`.lower()` folds case. -/

/-- Legacy price text: `hasattr` is always true on the pydantic model,
so the guard is truthiness of both legacy bounds (`None` and `0.0` are
falsy). -/
def legacyPriceParts (p : RealEstateProject) : List String :=
  match p.price_range_min, p.price_range_max with
  | some a, some b => if a ≠ 0 ∧ b ≠ 0 then ["precio " ++ ratStr a ++ " a " ++ ratStr b] else []
  | _, _ => []

/-- Legacy area text, same truthiness guard. -/
def legacyAreaParts (p : RealEstateProject) : List String :=
  match p.area_range_min, p.area_range_max with
  | some a, some b => if a ≠ 0 ∧ b ≠ 0 then ["area " ++ ratStr a ++ " a " ++ ratStr b] else []
  | _, _ => []

/-- Legacy unit-count text (`total_units` truthy means present and nonzero). -/
def legacyUnitParts (p : RealEstateProject) : List String :=
  match p.total_units with
  | some n => if n ≠ 0 then ["unidades " ++ toString n] else []
  | none => []

def createProjectSearchText (p : RealEstateProject) (owner : Option ProjectOwner) : String :=
  let base := [p.name, p.description.getD ""]
  let locParts :=
    match p.location with
    | some loc => [loc.address.getD "", loc.city.getD "", loc.department.getD ""]
    | none => ["", p.city.getD "", p.state.getD ""]
  let typeParts :=
    match p.unit_info with
    | some ui =>
        match ui.unit_types with
        | some l => if !l.isEmpty then l else [p.property_type.getD ""]
        | none => [p.property_type.getD ""]
    | none => [p.property_type.getD ""]
  let ownerParts :=
    match owner with
    | some o => [o.name, o.email]
    | none => []
  let amenParts :=
    match p.amenities with
    | some l => if !l.isEmpty then l else []
    | none => []
  let priceParts :=
    match p.price_info with
    | some pi =>
        match pi.min_price, pi.max_price with
        | some a, some b =>
            if a ≠ 0 ∧ b ≠ 0 then ["precio " ++ ratStr a ++ " a " ++ ratStr b] else []
        | _, _ => []
    | none => legacyPriceParts p
  let areaParts :=
    match p.unit_info with
    | some ui =>
        match ui.areas with
        | some areas =>
            if !areas.isEmpty then
              areas.filterMap fun kv =>
                match kv.2.min, kv.2.max with
                | some a, some b =>
                    some ("area " ++ kv.1 ++ " " ++ ratStr a ++ " a " ++ ratStr b)
                | _, _ => none
            else legacyAreaParts p
        | none => legacyAreaParts p
    | none => legacyAreaParts p
  let unitParts :=
    match p.unit_info with
    | some ui =>
        match ui.total_units with
        | some n => if n ≠ 0 then ["unidades " ++ toString n] else legacyUnitParts p
        | none => legacyUnitParts p
    | none => legacyUnitParts p
  let allParts := base ++ locParts ++ typeParts ++ ownerParts ++ amenParts
      ++ priceParts ++ areaParts ++ unitParts
  pyLower (String.intercalate " " (allParts.filter (· ≠ "")))

/-! ### Embedding-service: metadata construction

The `metadata` dict of `index_project`, built as the base literal
followed by the `metadata.update(...)` calls.  The updated key sets are
pairwise disjoint, so each update is an append in insertion order. -/

/-- The base metadata literal.  `str(x or "")` coerces `None` (and the
already-empty string) to `""`; the amenities list is JSON-encoded with
`"[]"` for a falsy value. -/
def metaBase (p : RealEstateProject) (owner : Option ProjectOwner) (searchText : String)
    (pid : ℤ) : List (String × MetaValue) :=
  [("project_id", MetaValue.i pid),
   ("name", MetaValue.s p.name),
   ("owner_name", MetaValue.s (match owner with | some o => o.name | none => "")),
   ("amenities", MetaValue.s
      (match p.amenities with
       | some l => if !l.isEmpty then jsonArr l else "[]"
       | none => "[]")),
   ("search_text", MetaValue.s searchText)]

/-- Location keys: new schema adds `location`/`city`/`department`; the
legacy branch adds `location`/`city`/`property_type` (the `getattr`
on the pydantic model returns the field value, `None` defaulting to
`""` under `or`). -/
def metaLocation (p : RealEstateProject) : List (String × MetaValue) :=
  match p.location with
  | some loc =>
      [("location", MetaValue.s (loc.address.getD "")),
       ("city", MetaValue.s (loc.city.getD "")),
       ("department", MetaValue.s (loc.department.getD ""))]
  | none =>
      [("location", MetaValue.s ""),
       ("city", MetaValue.s (p.city.getD "")),
       ("property_type", MetaValue.s (p.property_type.getD ""))]

/-- The `state` key: `str(project.status.value)` when the enum is set,
otherwise `str(None)`, the four-letter string. -/
def metaState (p : RealEstateProject) : List (String × MetaValue) :=
  [("state", MetaValue.s (match p.status with | some st => statusValue st | none => "None"))]

/-- The owner-NIT key: `hasattr(project, "project_owner_nit")` is always
true on the pydantic model, so the legacy branch is dead code. -/
def metaNit (p : RealEstateProject) : List (String × MetaValue) :=
  [("construction_company_nit", MetaValue.s (p.project_owner_nit.getD ""))]

/-- Price keys: `float(x or 0)` coerces `None` (and `0.0`) to `0`. -/
def metaPrice (p : RealEstateProject) : List (String × MetaValue) :=
  match p.price_info with
  | some pi =>
      [("price_min", MetaValue.f (pi.min_price.getD 0)),
       ("price_max", MetaValue.f (pi.max_price.getD 0))]
  | none =>
      [("price_min", MetaValue.f (p.price_range_min.getD 0)),
       ("price_max", MetaValue.f (p.price_range_max.getD 0))]

/-- Area keys: aggregate min/max over the `areas` dict values when it is
truthy (the inner conditional supplies `0.0` for an empty dict), else
legacy bounds with `or 0` defaults. -/
def metaArea (p : RealEstateProject) : List (String × MetaValue) :=
  match p.unit_info with
  | some ui =>
      match ui.areas with
      | some areas =>
          if !areas.isEmpty then
            [("area_min", MetaValue.f (pyMinL (areas.map fun kv => kv.2.min.getD 0))),
             ("area_max", MetaValue.f (pyMaxL (areas.map fun kv => kv.2.max.getD 0)))]
          else
            [("area_min", MetaValue.f (p.area_range_min.getD 0)),
             ("area_max", MetaValue.f (p.area_range_max.getD 0))]
      | none =>
          [("area_min", MetaValue.f (p.area_range_min.getD 0)),
           ("area_max", MetaValue.f (p.area_range_max.getD 0))]
  | none =>
      [("area_min", MetaValue.f (p.area_range_min.getD 0)),
       ("area_max", MetaValue.f (p.area_range_max.getD 0))]

/-- Unit-count keys: `int(x or 0)` under the new schema when `unit_info`
is set, else the legacy fields. -/
def metaUnits (p : RealEstateProject) : List (String × MetaValue) :=
  match p.unit_info with
  | some ui =>
      [("total_units", MetaValue.i (ui.total_units.getD 0 : ℕ)),
       ("available_units", MetaValue.i (ui.available_units.getD 0 : ℕ))]
  | none =>
      [("total_units", MetaValue.i (p.total_units.getD 0 : ℕ)),
       ("available_units", MetaValue.i (p.available_units.getD 0 : ℕ))]

/-- The full metadata dict of `index_project` before the final
`is not None` filter. -/
def buildMetadata (p : RealEstateProject) (owner : Option ProjectOwner) (searchText : String)
    (pid : ℤ) : List (String × MetaValue) :=
  metaBase p owner searchText pid ++ metaLocation p ++ metaState p ++ metaNit p
    ++ metaPrice p ++ metaArea p ++ metaUnits p

/-- `filtered_metadata = {k: v for k, v in metadata.items() if v is not None}`. -/
def filteredMetadata (p : RealEstateProject) (owner : Option ProjectOwner) (searchText : String)
    (pid : ℤ) : List (String × MetaValue) :=
  (buildMetadata p owner searchText pid).filter fun kv => kv.2 ≠ MetaValue.null

/-! ### Embedding-service: indexing, search and resync -/

/-- `EmbeddingService.index_project`.  `embed` is the sentence-
transformer: `none` models `generate_embedding` raising (the outer
`except` then returns `False`); `owner` is the result of the
best-effort `_get_project_owner` call (it never raises).  A `None`
project id is rejected with `False` before anything is written.  On
success the document is added under the id `"project_{id}"`. -/
def indexProject (embed : String → Option (List ℚ)) (owner : Option ProjectOwner)
    (p : RealEstateProject) (c : Collection) : Bool × Collection :=
  let searchText := createProjectSearchText p owner
  match embed searchText with
  | none => (false, c)
  | some emb =>
      match p.id with
      | none => (false, c)
      | some pid =>
          let metadata := filteredMetadata p owner searchText pid
          (true, c.add ("project_" ++ toString pid) ⟨emb, searchText, metadata⟩)

/-- One element of the `/search` response of the embedding service. -/
structure ESSearchResult where
  id : String
  score : ℚ
  metadata : List (String × MetaValue)
  document : Option String
deriving DecidableEq, Repr

/-- A `/search` request (the optional `where` filters are not modelled;
no claim involves them and the chat-api caller never sends them). -/
structure ESSearchRequest where
  query : String
  collection : String
  max_results : ℕ
  similarity_threshold : ℚ
deriving DecidableEq, Repr

/-- The `/search` response body. -/
structure ESSearchResponse where
  results : List ESSearchResult
  total_results : ℕ
  query : String
  collection : String
deriving DecidableEq, Repr

/-- The relation ordering k-NN output: ascending distance.  `dist` is
the distance of a stored entry to the query embedding. -/
def distLE (dist : Entry → ℚ) (a b : String × Entry) : Prop :=
  dist a.2 ≤ dist b.2

instance (dist : Entry → ℚ) : DecidableRel (distLE dist) := fun a b =>
  inferInstanceAs (Decidable (dist a.2 ≤ dist b.2))

instance (dist : Entry → ℚ) : IsTotal (String × Entry) (distLE dist) :=
  ⟨fun a b => le_total (dist a.2) (dist b.2)⟩

instance (dist : Entry → ℚ) : IsTrans (String × Entry) (distLE dist) :=
  ⟨fun _ _ _ hab hbc => le_trans hab hbc⟩

/-- `collection.query(query_embeddings=[e], n_results=k)`: the stored
entries ordered best-match-first (ascending distance to the query),
truncated to `k`.  The `score` carried into the response is the raw
distance (`results["distances"]`). -/
def Collection.query (c : Collection) (dist : Entry → ℚ) (k : ℕ) : List ESSearchResult :=
  ((List.insertionSort (distLE dist) c.entries).take k).map fun kv =>
    ⟨kv.1, dist kv.2, kv.2.metadata, some kv.2.document⟩

/-- `EmbeddingService.search_projects`: embed the query, run k-NN, then
drop every result whose score is below the similarity threshold before
assembling the response (`total_results` counts the survivors). -/
def esSearchProjects (c : Collection) (dist : Entry → ℚ) (req : ESSearchRequest) :
    ESSearchResponse :=
  let searchResults := c.query dist req.max_results
  let filteredResults := searchResults.filter fun r => decide (req.similarity_threshold ≤ r.score)
  ⟨filteredResults, filteredResults.length, req.query, req.collection⟩

/-- The value of `sync_all_projects`: either the counter dict with
`success: True`, or the `success: False` error dict. -/
inductive SyncOutcome where
  | ok (total_projects indexed_count error_count : ℕ) : SyncOutcome
  | err (msg : String) : SyncOutcome
deriving DecidableEq, Repr

/-- `EmbeddingService.sync_all_projects`.  `fetch` is the canonical-store
bulk pull: `none` models a non-200 response or a raised transport
error (both return the error dict without touching the index); `some
projects` is the parsed listing.  Each record is indexed in turn,
counting successes and failures; a failing record never aborts the
loop. -/
def syncStep (embed : String → Option (List ℚ))
    (ownerOf : RealEstateProject → Option ProjectOwner)
    (acc : ℕ × ℕ × Collection) (p : RealEstateProject) : ℕ × ℕ × Collection :=
  match indexProject embed (ownerOf p) p acc.2.2 with
  | (true, c2) => (acc.1 + 1, acc.2.1, c2)
  | (false, c2) => (acc.1, acc.2.1 + 1, c2)

def syncAllProjects (embed : String → Option (List ℚ))
    (ownerOf : RealEstateProject → Option ProjectOwner)
    (fetch : Option (List RealEstateProject)) (c : Collection) : SyncOutcome × Collection :=
  match fetch with
  | none => (.err "Failed to fetch projects", c)
  | some projects =>
      let res := projects.foldl (syncStep embed ownerOf) (0, 0, c)
      (.ok projects.length res.1 res.2.1, res.2.2)

/-! ### Shared lemmas about the collection -/

theorem Collection.mem_keys_add (c : Collection) (id : String) (e : Entry) :
    id ∈ (c.add id e).keys := by
  unfold Collection.add
  split
  · assumption
  · simp [Collection.keys]

theorem Collection.add_eq_of_mem {c : Collection} {id : String} (e : Entry)
    (h : id ∈ c.keys) : c.add id e = c := by
  unfold Collection.add
  simp [h]

theorem Collection.wf_add (c : Collection) (id : String) (e : Entry) (h : c.wf) :
    (c.add id e).wf := by
  unfold Collection.add
  split
  · exact h
  · rename_i hid
    unfold Collection.wf Collection.keys at h ⊢
    simp only [List.map_append, List.map_cons, List.map_nil]
    rw [List.nodup_append]
    refine ⟨h, List.nodup_singleton _, ?_⟩
    intro a ha hb
    simp only [List.mem_singleton] at hb
    subst hb
    exact hid ha

theorem Collection.countP_key_eq_one {c : Collection} {id : String} (hwf : c.wf)
    (h : id ∈ c.keys) :
    c.entries.countP (fun kv => kv.1 == id) = 1 := by
  have h1 : c.entries.countP (fun kv => kv.1 == id)
      = (c.entries.map Prod.fst).countP (fun k => k == id) := by
    rw [List.countP_map]
    rfl
  have h2 : (c.entries.map Prod.fst).countP (fun k => k == id)
      = (c.entries.map Prod.fst).count id := by
    rw [List.count]
  rw [h1, h2]
  exact List.count_eq_one_of_mem hwf h

/-! ### Claim C10: indexing a record with a null id -/

/-- Claim C10: for every project record whose id is `None`, `index_project`
returns `False` without raising, and the collection is left unchanged
(no document is added). -/
theorem index_null_id_rejected (embed : String → Option (List ℚ))
    (owner : Option ProjectOwner) (p : RealEstateProject) (c : Collection)
    (h : p.id = none) :
    indexProject embed owner p c = (false, c) := by
  cases hE : embed (createProjectSearchText p owner) with
  | none => simp [indexProject, hE]
  | some emb => simp [indexProject, hE, h]

/-- A record with a null id, used to witness claim C10. -/
def projC10 : RealEstateProject :=
  ⟨none, "Torre Norte", none, none, none, none, none, none, none, none, none,
   none, none, none, none, none, none, none, none⟩

/-- Witness for claim C10 at a concrete record and the empty collection. -/
theorem index_null_id_rejected_witness :
    projC10.id = none
    ∧ indexProject (fun _ => some [1]) none projC10 ⟨[]⟩ = (false, ⟨[]⟩) :=
  ⟨rfl, index_null_id_rejected (fun _ => some [1]) none projC10 ⟨[]⟩ rfl⟩

/-! ### Claim C3: indexing the same record twice -/

/-- Claim C3: if indexing a record (with its deterministic owner-lookup
result and embedding) succeeds, then indexing the same record again
succeeds as well, returns the very same collection — so the count and
all query results are unchanged relative to indexing once — and, on a
well-formed collection, the index holds exactly one entry under the
id of that record. -/
theorem index_twice_idempotent (embed : String → Option (List ℚ))
    (owner : Option ProjectOwner) (p : RealEstateProject) (c : Collection)
    (h : (indexProject embed owner p c).1 = true) :
    indexProject embed owner p (indexProject embed owner p c).2
      = (true, (indexProject embed owner p c).2)
    ∧ ((indexProject embed owner p (indexProject embed owner p c).2).2).count
        = ((indexProject embed owner p c).2).count
    ∧ (∀ (dist : Entry → ℚ) (k : ℕ),
        ((indexProject embed owner p (indexProject embed owner p c).2).2).query dist k
          = ((indexProject embed owner p c).2).query dist k)
    ∧ (∀ pid, p.id = some pid → c.wf →
        ((indexProject embed owner p c).2).entries.countP
          (fun kv => kv.1 == "project_" ++ toString pid) = 1) := by
  cases hE : embed (createProjectSearchText p owner) with
  | none => simp [indexProject, hE] at h
  | some emb =>
    cases hid : p.id with
    | none => simp [indexProject, hE, hid] at h
    | some pid =>
      have hfirst : indexProject embed owner p c
          = (true, c.add ("project_" ++ toString pid)
              ⟨emb, createProjectSearchText p owner,
               filteredMetadata p owner (createProjectSearchText p owner) pid⟩) := by
        simp [indexProject, hE, hid]
      have hmem : ("project_" ++ toString pid) ∈ ((indexProject embed owner p c).2).keys := by
        rw [hfirst]
        exact Collection.mem_keys_add c _ _
      have hsecond : indexProject embed owner p (indexProject embed owner p c).2
          = (true, (indexProject embed owner p c).2) := by
        simp only [indexProject, hE, hid]
        rw [Collection.add_eq_of_mem _ (Collection.mem_keys_add c _ _)]
      refine ⟨hsecond, by rw [hsecond], fun dist k => by rw [hsecond], ?_⟩
      intro pid2 hpid2 hwf
      injection hpid2 with heq
      subst heq
      apply Collection.countP_key_eq_one _ hmem
      rw [hfirst]
      exact Collection.wf_add c _ _ hwf

/-- A concrete record with id 7, used to witness claim C3. -/
def projC3 : RealEstateProject :=
  ⟨some 7, "Conjunto Verde", some "apartamentos", none, none, none, none,
   some ["piscina"], some .completo, none, none, none, none, none, none, none,
   none, none, none⟩

/-- Witness for claim C3: the hypothesis (the first indexing succeeds)
holds at a concrete record, embedding function and empty collection,
and the second indexing then returns the unchanged collection. -/
theorem index_twice_idempotent_witness :
    (indexProject (fun _ => some [1]) none projC3 ⟨[]⟩).1 = true
    ∧ indexProject (fun _ => some [1]) none projC3
        (indexProject (fun _ => some [1]) none projC3 ⟨[]⟩).2
      = (true, (indexProject (fun _ => some [1]) none projC3 ⟨[]⟩).2) :=
  ⟨rfl, (index_twice_idempotent (fun _ => some [1]) none projC3 ⟨[]⟩ rfl).1⟩

/-! ### Claim C9: stored metadata never contains null values -/

theorem metaBase_no_null (p : RealEstateProject) (owner : Option ProjectOwner)
    (st : String) (pid : ℤ) :
    ∀ kv ∈ metaBase p owner st pid, kv.2 ≠ MetaValue.null := by
  intro kv hkv
  simp only [metaBase, List.mem_cons, List.not_mem_nil, or_false] at hkv
  rcases hkv with rfl | rfl | rfl | rfl | rfl <;> simp

theorem metaLocation_no_null (p : RealEstateProject) :
    ∀ kv ∈ metaLocation p, kv.2 ≠ MetaValue.null := by
  unfold metaLocation
  rcases p.location with _ | loc <;>
    (intro kv hkv
     simp only [List.mem_cons, List.not_mem_nil, or_false] at hkv
     rcases hkv with rfl | rfl | rfl <;> simp)

theorem metaState_no_null (p : RealEstateProject) :
    ∀ kv ∈ metaState p, kv.2 ≠ MetaValue.null := by
  intro kv hkv
  simp only [metaState, List.mem_cons, List.not_mem_nil, or_false] at hkv
  subst hkv
  simp

theorem metaNit_no_null (p : RealEstateProject) :
    ∀ kv ∈ metaNit p, kv.2 ≠ MetaValue.null := by
  intro kv hkv
  simp only [metaNit, List.mem_cons, List.not_mem_nil, or_false] at hkv
  subst hkv
  simp

theorem metaPrice_no_null (p : RealEstateProject) :
    ∀ kv ∈ metaPrice p, kv.2 ≠ MetaValue.null := by
  unfold metaPrice
  rcases p.price_info with _ | pi <;>
    (intro kv hkv
     simp only [List.mem_cons, List.not_mem_nil, or_false] at hkv
     rcases hkv with rfl | rfl <;> simp)

theorem metaArea_no_null (p : RealEstateProject) :
    ∀ kv ∈ metaArea p, kv.2 ≠ MetaValue.null := by
  unfold metaArea
  repeat' split
  all_goals
    (intro kv hkv
     simp only [List.mem_cons, List.not_mem_nil, or_false] at hkv
     rcases hkv with rfl | rfl <;> simp)

theorem metaUnits_no_null (p : RealEstateProject) :
    ∀ kv ∈ metaUnits p, kv.2 ≠ MetaValue.null := by
  unfold metaUnits
  rcases p.unit_info with _ | ui <;>
    (intro kv hkv
     simp only [List.mem_cons, List.not_mem_nil, or_false] at hkv
     rcases hkv with rfl | rfl <;> simp)

theorem buildMetadata_no_null (p : RealEstateProject) (owner : Option ProjectOwner)
    (st : String) (pid : ℤ) :
    ∀ kv ∈ buildMetadata p owner st pid, kv.2 ≠ MetaValue.null := by
  intro kv hkv
  unfold buildMetadata at hkv
  simp only [List.mem_append] at hkv
  rcases hkv with ((((((h | h) | h) | h) | h) | h) | h)
  · exact metaBase_no_null p owner st pid kv h
  · exact metaLocation_no_null p kv h
  · exact metaState_no_null p kv h
  · exact metaNit_no_null p kv h
  · exact metaPrice_no_null p kv h
  · exact metaArea_no_null p kv h
  · exact metaUnits_no_null p kv h

/-- Claim C9: for every indexed record, the metadata map stored with its
document contains no null value — every absent or `None` source field
was coerced to a typed default (empty string, zero, `"[]"`) beforehand,
so the final `is not None` filter of the source removes nothing. -/
theorem stored_metadata_never_null (p : RealEstateProject) (owner : Option ProjectOwner)
    (st : String) (pid : ℤ) :
    ((buildMetadata p owner st pid).all fun kv => decide (kv.2 ≠ MetaValue.null)) = true
    ∧ filteredMetadata p owner st pid = buildMetadata p owner st pid := by
  constructor
  · exact List.all_eq_true.mpr fun kv hkv =>
      decide_eq_true (buildMetadata_no_null p owner st pid kv hkv)
  · exact List.filter_eq_self.mpr fun kv hkv =>
      decide_eq_true (buildMetadata_no_null p owner st pid kv hkv)

/-! ### Claim C5: similarity-threshold monotonicity -/

/-- Claim C5: over the same indexed collection (same distance function and
k-NN cap), raising the similarity threshold can only shrink the result
set: for `t1 < t2` the results at `t2` are a subset of the results at
`t1`.  Moreover every below-threshold match is removed before any
further processing: the response is assembled from the filtered list
alone, and `total_results` counts exactly the survivors. -/
theorem search_threshold_monotone (c : Collection) (dist : Entry → ℚ) (q col : String)
    (k : ℕ) (t1 t2 : ℚ) (h : t1 < t2) :
    (esSearchProjects c dist ⟨q, col, k, t2⟩).results
        ⊆ (esSearchProjects c dist ⟨q, col, k, t1⟩).results
    ∧ (esSearchProjects c dist ⟨q, col, k, t2⟩).results
        = (c.query dist k).filter (fun r => decide (t2 ≤ r.score))
    ∧ (esSearchProjects c dist ⟨q, col, k, t2⟩).total_results
        = ((c.query dist k).filter (fun r => decide (t2 ≤ r.score))).length := by
  refine ⟨?_, rfl, rfl⟩
  intro r hr
  simp only [esSearchProjects, List.mem_filter, decide_eq_true_eq] at hr ⊢
  exact ⟨hr.1, le_trans h.le hr.2⟩

/-- A two-entry collection used to witness claim C5. -/
def collC5 : Collection :=
  ⟨[("project_1", ⟨[0], "torre norte bogota", []⟩),
    ("project_2", ⟨[1], "conjunto verde cali", []⟩)]⟩

/-- Witness for claim C5 at concrete thresholds 3/10 < 7/10 over a
concrete collection. -/
theorem search_threshold_monotone_witness :
    (3/10 : ℚ) < 7/10
    ∧ (esSearchProjects collC5 (fun e => e.embedding.headD 0) ⟨"q", "real_estate_projects", 5, 7/10⟩).results
        ⊆ (esSearchProjects collC5 (fun e => e.embedding.headD 0) ⟨"q", "real_estate_projects", 5, 3/10⟩).results :=
  ⟨by norm_num,
   (search_threshold_monotone collC5 (fun e => e.embedding.headD 0) "q" "real_estate_projects"
      5 (3/10) (7/10) (by norm_num)).1⟩

/-! ### Claim C6: bulk resync counters and fail-fast -/

/-- Whether `index_project` will succeed for a record, independently of
the collection it is applied to. -/
def indexOk (embed : String → Option (List ℚ)) (owner : Option ProjectOwner)
    (p : RealEstateProject) : Bool :=
  match embed (createProjectSearchText p owner) with
  | none => false
  | some _ =>
      match p.id with
      | none => false
      | some _ => true

theorem indexProject_fst (embed : String → Option (List ℚ)) (owner : Option ProjectOwner)
    (p : RealEstateProject) (c : Collection) :
    (indexProject embed owner p c).1 = indexOk embed owner p := by
  cases hE : embed (createProjectSearchText p owner) with
  | none => simp [indexProject, indexOk, hE]
  | some emb => cases hid : p.id <;> simp [indexProject, indexOk, hE, hid]

theorem sync_foldl_counts (embed : String → Option (List ℚ))
    (ownerOf : RealEstateProject → Option ProjectOwner) :
    ∀ (ps : List RealEstateProject) (i e : ℕ) (c : Collection),
      (ps.foldl (syncStep embed ownerOf) (i, e, c)).1
          = i + ps.countP (fun p => indexOk embed (ownerOf p) p)
      ∧ (ps.foldl (syncStep embed ownerOf) (i, e, c)).2.1
          = e + ps.countP (fun p => !indexOk embed (ownerOf p) p) := by
  intro ps
  induction ps with
  | nil => intro i e c; simp
  | cons p ps ih =>
    intro i e c
    have hstep : ∀ acc : ℕ × ℕ × Collection,
        syncStep embed ownerOf acc p
          = if indexOk embed (ownerOf p) p
              then (acc.1 + 1, acc.2.1, (indexProject embed (ownerOf p) p acc.2.2).2)
              else (acc.1, acc.2.1 + 1, (indexProject embed (ownerOf p) p acc.2.2).2) := by
      intro acc
      unfold syncStep
      rw [← indexProject_fst embed (ownerOf p) p acc.2.2]
      cases hI : indexProject embed (ownerOf p) p acc.2.2 with
      | mk b c2 => cases b <;> simp [hI]
    simp only [List.foldl_cons, List.countP_cons, hstep]
    cases hOk : indexOk embed (ownerOf p) p
    · simpa [hOk, Nat.add_comm, Nat.add_assoc, Nat.add_left_comm] using
        ih i (e + 1) (indexProject embed (ownerOf p) p c).2
    · simpa [hOk, Nat.add_comm, Nat.add_assoc, Nat.add_left_comm] using
        ih (i + 1) e (indexProject embed (ownerOf p) p c).2

theorem countP_add_countP_not {α : Type} (f : α → Bool) :
    ∀ l : List α, l.countP f + l.countP (fun a => !f a) = l.length
  | [] => rfl
  | x :: xs => by
      have ih := countP_add_countP_not f xs
      simp only [List.countP_cons, List.length_cons]
      cases hf : f x <;> simp [hf] <;> omega

/-- Claim C6: a bulk resync over `N` fetched records of which `k` fail to
embed reports `total_projects = N`, `indexed_count = N − k`,
`error_count = k` (no exception aborts the loop: the fold is total);
if the canonical store is unreachable at the start, the whole
operation returns the error outcome and leaves the index untouched.
The hypothesis that every fetched record carries an id matches the
canonical listing (records without ids cannot be stored); a missing id
would simply be counted as one more error. -/
theorem sync_counts_and_fail_fast (embed : String → Option (List ℚ))
    (ownerOf : RealEstateProject → Option ProjectOwner)
    (ps : List RealEstateProject) (c : Collection)
    (hids : ∀ p ∈ ps, p.id ≠ none) :
    (syncAllProjects embed ownerOf (some ps) c).1
      = SyncOutcome.ok ps.length
          (ps.length - ps.countP fun p => (embed (createProjectSearchText p (ownerOf p))).isNone)
          (ps.countP fun p => (embed (createProjectSearchText p (ownerOf p))).isNone)
    ∧ syncAllProjects embed ownerOf none c = (SyncOutcome.err "Failed to fetch projects", c) := by
  refine ⟨?_, rfl⟩
  have hfold := sync_foldl_counts embed ownerOf ps 0 0 c
  have hcong : ∀ p ∈ ps,
      (!indexOk embed (ownerOf p) p) = (embed (createProjectSearchText p (ownerOf p))).isNone := by
    intro p hp
    rcases Option.ne_none_iff_exists.mp (hids p hp) with ⟨pid, hpid⟩
    cases hE : embed (createProjectSearchText p (ownerOf p)) <;>
      simp [indexOk, hE, ← hpid]
  have hsum : ps.countP (fun p => indexOk embed (ownerOf p) p)
      + ps.countP (fun p => !indexOk embed (ownerOf p) p) = ps.length :=
    countP_add_countP_not (fun p => indexOk embed (ownerOf p) p) ps
  have hsplit : ps.countP (fun p => indexOk embed (ownerOf p) p)
      = ps.length - ps.countP (fun p => !indexOk embed (ownerOf p) p) := by
    omega
  have hcnt : ps.countP (fun p => !indexOk embed (ownerOf p) p)
      = ps.countP fun p => (embed (createProjectSearchText p (ownerOf p))).isNone :=
    List.countP_congr fun p hp => by rw [hcong p hp]
  simp only [syncAllProjects]
  rw [hfold.1, hfold.2, Nat.zero_add, Nat.zero_add, hsplit, hcnt]

/-- A record whose composed search text is `"good"`. -/
def projC6good : RealEstateProject :=
  ⟨some 1, "good", none, none, none, none, none, none, none, none, none,
   none, none, none, none, none, none, none, none⟩

/-- A record whose composed search text is `"bad"`, made to fail embedding. -/
def projC6bad : RealEstateProject :=
  ⟨some 2, "bad", none, none, none, none, none, none, none, none, none,
   none, none, none, none, none, none, none, none⟩

/-- An embedding backend that raises exactly on the text `"bad"`. -/
def embedC6 (s : String) : Option (List ℚ) := if s = "bad" then none else some [1]

/-- Witness for claim C6: two fetched records, one failing to embed —
the resync reports totals 2/1/1. -/
theorem sync_counts_and_fail_fast_witness :
    (∀ p ∈ [projC6good, projC6bad], p.id ≠ none)
    ∧ (syncAllProjects embedC6 (fun _ => none) (some [projC6good, projC6bad]) ⟨[]⟩).1
        = SyncOutcome.ok 2 1 1 := by
  have h := (sync_counts_and_fail_fast embedC6 (fun _ => none) [projC6good, projC6bad] ⟨[]⟩
    (by decide)).1
  refine ⟨by decide, ?_⟩
  rw [h]
  decide

/-! ### Claim C2: vector-search failure handling in the chat-api -/

/-- A hit carrying a usable project id, used for claim C2. -/
def hitC2 : SearchHit := ⟨some 7, some (1/2), none⟩

/-- The hydrated project behind `hitC2`. -/
def projC2 : Project := ⟨7, none, [], .missing, .null, 0, 0⟩

/-- The hydration function for claim C2. -/
def hydrateC2 (i : ℤ) : Option Project := if i = 7 then some projC2 else none

/-- The all-neutral filter set used in claim C2. -/
def filtersC2 : Filters := ⟨none, none, none, none, none⟩

/-- Claim C2 counterexample: with the very same backend payload, a 503
from the vector-search backend makes the chat-api search return `[]` —
the same value as a successful search over an empty index — while a
200 yields results.  The return type (`List`) carries no error channel
at all, so the caller cannot distinguish backend failure from an
empty-but-successful result, contrary to the claim. -/
theorem search_backend_failure_cex :
    searchProjects filtersC2 (some (503, [hitC2])) hydrateC2 = []
    ∧ searchProjects filtersC2 (some (200, [hitC2])) hydrateC2 ≠ []
    ∧ searchProjects filtersC2 none hydrateC2 = [] := by
  refine ⟨rfl, ?_, rfl⟩
  decide

/-- Claim C2 amended: when the vector-search backend is unreachable or
answers with a non-success status, the chat-api search logs the error
and returns the empty list — presented exactly like a successful empty
result — rather than an explicit error.  (The embedding-service's own
`/search` endpoint does surface an HTTP 500 to its callers.) -/
theorem search_backend_failure_yields_empty (f : Filters) (hydrate : ℤ → Option Project)
    (code : ℕ) (body : List SearchHit) (h : code ≠ 200) :
    searchProjects f (some (code, body)) hydrate = []
    ∧ searchProjects f none hydrate = [] := by
  constructor
  · simp [searchProjects, searchEmbeddingService, h]
  · rfl

/-- Witness for the amended claim C2 at status 503. -/
theorem search_backend_failure_yields_empty_witness :
    (503 : ℕ) ≠ 200
    ∧ searchProjects ⟨some "apartamento", none, none, none, none⟩ (some (503, [])) (fun _ => none)
        = [] :=
  ⟨by decide,
   (search_backend_failure_yields_empty ⟨some "apartamento", none, none, none, none⟩
      (fun _ => none) 503 [] (by decide)).1⟩

/-! ### Claim C7: amenities hard filter and neutrality of absent filters -/

theorem mem_of_mem_filterLocStage {p : Project} {lof : Option String} {l : List Project}
    (h : p ∈ filterLocStage lof l) : p ∈ l := by
  unfold filterLocStage at h
  split at h
  · exact (List.mem_filter.mp h).1
  · exact h

/-- Claim C7: a supplied amenities filter removes every candidate that
lacks at least one required amenity — such a candidate never appears
in the output of `_apply_filters` — and a filter with no supplied
value (absent price range, absent or empty amenities list, non-truthy
location) removes nothing. -/
theorem amenities_filter_correct :
    (∀ (projects : List Project) (f : Filters) (req : List String) (a : String) (p : Project),
        f.amenities = some req → a ∈ req → a ∉ p.amenities →
        p ∉ applyFilters projects f)
    ∧ (∀ projects : List Project, filterPriceStage none projects = projects)
    ∧ (∀ projects : List Project,
        filterAmenStage none projects = projects ∧ filterAmenStage (some []) projects = projects)
    ∧ (∀ (projects : List Project) (lof : Option String),
        strTruthy lof = false → filterLocStage lof projects = projects) := by
  refine ⟨?_, fun _ => rfl, fun projects => ⟨rfl, rfl⟩, ?_⟩
  · intro projects f req a p hreq ha hnot hmem
    have hreqne : ¬req.isEmpty := by
      cases req with
      | nil => cases ha
      | cons x xs => simp
    have h1 : p ∈ filterAmenStage f.amenities (filterPriceStage f.price_range projects) :=
      mem_of_mem_filterLocStage hmem
    rw [hreq] at h1
    unfold filterAmenStage at h1
    simp only [listTruthy, Option.getD_some, hreqne, Bool.not_false, if_true,
      Bool.not_eq_true'] at h1
    have h2 := (List.mem_filter.mp h1).2
    rw [List.all_eq_true] at h2
    exact hnot (by simpa [getProjectAmenities] using h2 a ha)
  · intro projects lof h
    unfold filterLocStage
    rw [h]
    rfl

/-- The filtered-out candidate of the claim C7 witness: it lacks the
required amenity `"piscina"`. -/
def projC7 : Project := ⟨3, none, ["parque"], .missing, .null, 0, 0⟩

/-- The filter set of the claim C7 witness. -/
def filtersC7 : Filters := ⟨none, none, none, some ["piscina"], none⟩

/-- Witness for claim C7: the candidate without the required amenity is
removed at a concrete input. -/
theorem amenities_filter_correct_witness :
    filtersC7.amenities = some ["piscina"]
    ∧ "piscina" ∈ ["piscina"]
    ∧ "piscina" ∉ projC7.amenities
    ∧ projC7 ∉ applyFilters [projC7] filtersC7 :=
  ⟨rfl, by decide, by decide,
   amenities_filter_correct.1 [projC7] filtersC7 ["piscina"] "piscina" projC7 rfl
     (by decide) (by decide)⟩

/-! ### Claim C8: price and availability component scores -/

/-- A candidate whose `unit_info` key is missing entirely, for the claim
C8 counterexample. -/
def projC8 : Project := ⟨9, none, [], .missing, .missing, 0, 0⟩

/-- Claim C8 counterexample: for a candidate with no `unit_info` key the
availability score is `0.0`, not the claimed neutral `0.5` — the
missing key defaults to the empty dict, which defaults to
`available = 0`, `total = 1`, ratio `0`. -/
theorem availability_absent_unit_info_cex :
    projC8.unit_info = UnitField.missing
    ∧ calcAvailabilityScore projC8 = 0
    ∧ (0 : ℚ) ≠ 1/2 := by
  refine ⟨rfl, ?_, by norm_num⟩
  show calcAvailabilityScore projC8 = 0
  simp only [calcAvailabilityScore, projC8]
  norm_num

/-- Claim C8 amended: the price component is `1.0` inside `[min, max]`,
`0.3` below `min`, `0.1` above `max` (when not also below `min`), and
`0.5` with no price filter, exactly as claimed; the availability
component is the `available/total` ratio capped at `1.0` (and hence in
`[0, 1]`, the counts being non-negative) when `unit_info` is a map
with positive total, `0.5` when `unit_info` is null/non-map or its
total is `0`, and `0.0` — not `0.5` — when the `unit_info` key is
missing altogether. -/
theorem price_and_availability_scores (p : Project) (f : Filters) (pr : PriceRangeF) :
    (f.price_range = some pr → pr.min.getD 0 ≤ getProjectPrice p →
        leMaxB (getProjectPrice p) pr.max = true → calcPriceScore p f = 1)
    ∧ (f.price_range = some pr → getProjectPrice p < pr.min.getD 0 →
        calcPriceScore p f = 3/10)
    ∧ (∀ mx : ℚ, f.price_range = some pr → pr.max = some mx →
        pr.min.getD 0 ≤ getProjectPrice p → mx < getProjectPrice p →
        calcPriceScore p f = 1/10)
    ∧ (f.price_range = none → calcPriceScore p f = 1/2)
    ∧ (∀ av tu : Option ℕ, p.unit_info = UnitField.obj av tu → 0 < tu.getD 1 →
        calcAvailabilityScore p = min ((av.getD 0 : ℚ) / (tu.getD 1 : ℚ)) 1
        ∧ 0 ≤ calcAvailabilityScore p ∧ calcAvailabilityScore p ≤ 1)
    ∧ (p.unit_info = UnitField.null → calcAvailabilityScore p = 1/2)
    ∧ (∀ av tu : Option ℕ, p.unit_info = UnitField.obj av tu → tu.getD 1 = 0 →
        calcAvailabilityScore p = 1/2)
    ∧ (p.unit_info = UnitField.missing → calcAvailabilityScore p = 0) := by
  refine ⟨?_, ?_, ?_, ?_, ?_, ?_, ?_, ?_⟩
  · intro hpr h1 h2
    simp [calcPriceScore, hpr, h1, h2]
  · intro hpr h1
    have hnot : ¬(pr.min.getD 0 ≤ getProjectPrice p ∧ leMaxB (getProjectPrice p) pr.max = true) := by
      rintro ⟨h2, _⟩
      exact absurd h1 (not_lt.mpr h2)
    simp only [calcPriceScore, hpr]
    rw [if_neg (by simpa using hnot), if_pos h1]
  · intro mx hpr hmx h1 h2
    have hmaxf : leMaxB (getProjectPrice p) pr.max = false := by
      rw [hmx]
      simp [leMaxB, not_le.mpr h2]
    have hnot : ¬(pr.min.getD 0 ≤ getProjectPrice p ∧ leMaxB (getProjectPrice p) pr.max = true) := by
      rintro ⟨_, hc⟩
      rw [hmaxf] at hc
      cases hc
    simp only [calcPriceScore, hpr]
    rw [if_neg (by simpa using hnot), if_neg (not_lt.mpr h1)]
  · intro hpr
    simp [calcPriceScore, hpr]
  · intro av tu hui htu
    have heq : calcAvailabilityScore p = min ((av.getD 0 : ℚ) / (tu.getD 1 : ℚ)) 1 := by
      simp [calcAvailabilityScore, hui, htu]
    refine ⟨heq, ?_, ?_⟩
    · rw [heq]
      have h0 : (0 : ℚ) ≤ (av.getD 0 : ℚ) / (tu.getD 1 : ℚ) :=
        div_nonneg (by positivity) (by positivity)
      exact le_min h0 zero_le_one
    · rw [heq]
      exact min_le_right _ _
  · intro hui
    simp [calcAvailabilityScore, hui]
  · intro av tu hui htu
    simp [calcAvailabilityScore, hui, htu]
  · intro hui
    simp [calcAvailabilityScore, hui]

/-- The candidate and filter of the claim C8 witness: price inside the
supplied range scores `1.0`, and a null `unit_info` scores `0.5`. -/
def projC8w : Project := ⟨4, some ⟨some 250⟩, [], .missing, .null, 0, 0⟩

/-- The price filter of the claim C8 witness. -/
def filtersC8w : Filters := ⟨none, none, none, none, some ⟨some 100, some 300⟩⟩

/-- Witness for the amended claim C8: in-range price scores `1.0` and a
null `unit_info` scores `0.5` at a concrete candidate. -/
theorem price_and_availability_scores_witness :
    filtersC8w.price_range = some ⟨some 100, some 300⟩
    ∧ (⟨some 100, some 300⟩ : PriceRangeF).min.getD 0 ≤ getProjectPrice projC8w
    ∧ leMaxB (getProjectPrice projC8w) (⟨some 100, some 300⟩ : PriceRangeF).max = true
    ∧ calcPriceScore projC8w filtersC8w = 1
    ∧ calcAvailabilityScore projC8w = 1/2 :=
  ⟨rfl, by decide, by decide,
   (price_and_availability_scores projC8w filtersC8w ⟨some 100, some 300⟩).1 rfl
     (by decide) (by decide),
   (price_and_availability_scores projC8w filtersC8w ⟨some 100, some 300⟩).2.2.2.2.2.1 rfl⟩

/-! ### Claim C1: the final score formula and its range -/

theorem calcLocationScore_mem (p : Project) (f : Filters) :
    calcLocationScore p f = 1/2 ∨ calcLocationScore p f = 1
    ∨ calcLocationScore p f = 7/10 ∨ calcLocationScore p f = 3/10 := by
  simp only [calcLocationScore]
  split_ifs <;> tauto

theorem calcLocationScore_bounds (p : Project) (f : Filters) :
    0 ≤ calcLocationScore p f ∧ calcLocationScore p f ≤ 1 := by
  rcases calcLocationScore_mem p f with h | h | h | h <;> rw [h] <;> norm_num

theorem calcPriceScore_bounds (p : Project) (f : Filters) :
    0 ≤ calcPriceScore p f ∧ calcPriceScore p f ≤ 1 := by
  simp only [calcPriceScore]
  split
  · norm_num
  · split_ifs <;> norm_num

theorem calcAmenitiesScore_bounds (p : Project) (f : Filters) :
    0 ≤ calcAmenitiesScore p f ∧ calcAmenitiesScore p f ≤ 1 := by
  unfold calcAmenitiesScore
  split
  · norm_num
  · split_ifs with h
    · norm_num
    · constructor
      · exact le_min (div_nonneg (by positivity) (by positivity)) zero_le_one
      · exact min_le_right _ _

theorem calcAvailabilityScore_bounds (p : Project) :
    0 ≤ calcAvailabilityScore p ∧ calcAvailabilityScore p ≤ 1 := by
  simp only [calcAvailabilityScore]
  split
  · constructor
    · exact le_min (div_nonneg (by positivity) (by positivity)) zero_le_one
    · exact min_le_right _ _
  · norm_num
  · split_ifs with h
    · constructor
      · exact le_min (div_nonneg (by positivity) (by positivity)) zero_le_one
      · exact min_le_right _ _
    · norm_num

theorem round3_bounds (q : ℚ) (h0 : 0 ≤ q) (h1 : q ≤ 1) :
    0 ≤ round3 q ∧ round3 q ≤ 1 := by
  unfold round3
  constructor
  · apply div_nonneg _ (by norm_num : (0:ℚ) ≤ 1000)
    have h : (0 : ℤ) ≤ ⌊q * 1000 + 1/2⌋ := by
      apply Int.le_floor.mpr
      push_cast
      linarith
    exact_mod_cast h
  · rw [div_le_one (by norm_num : (0:ℚ) < 1000)]
    have h : ⌊q * 1000 + 1/2⌋ ≤ 1000 := by
      have hle : ((⌊q * 1000 + 1/2⌋ : ℤ) : ℚ) ≤ q * 1000 + 1/2 := Int.floor_le _
      by_contra hc
      push_neg at hc
      have h1001 : (1001 : ℚ) ≤ ((⌊q * 1000 + 1/2⌋ : ℤ) : ℚ) := by exact_mod_cast hc
      linarith
    exact_mod_cast h

/-- Claim C1 amended: the final score is the weighted sum
`0.40·search_score + 0.25·location + 0.20·price + 0.10·amenities +
0.05·availability` rounded to three decimals, where the semantic term
is the raw vector-search score carried through unnormalised (a ChromaDB
distance, not a post-threshold-normalised similarity); the four
rule-based components always lie in `[0, 1]`, so whenever the raw
search score itself lies in `[0, 1]` the final score lies in `[0, 1]`
as well. -/
theorem final_score_formula_and_bounds (p : Project) (f : Filters)
    (h0 : 0 ≤ p.search_score) (h1 : p.search_score ≤ 1) :
    finalScore p f
      = round3 (p.search_score * (2/5) + calcLocationScore p f * (1/4)
          + calcPriceScore p f * (1/5) + calcAmenitiesScore p f * (1/10)
          + calcAvailabilityScore p * (1/20))
    ∧ 0 ≤ finalScore p f ∧ finalScore p f ≤ 1 := by
  have hloc := calcLocationScore_bounds p f
  have hpr := calcPriceScore_bounds p f
  have ham := calcAmenitiesScore_bounds p f
  have hav := calcAvailabilityScore_bounds p
  have hraw0 : 0 ≤ rawScore p f := by
    unfold rawScore
    linarith [hloc.1, hpr.1, ham.1, hav.1]
  have hraw1 : rawScore p f ≤ 1 := by
    unfold rawScore
    linarith [hloc.2, hpr.2, ham.2, hav.2]
  have hb := round3_bounds _ hraw0 hraw1
  exact ⟨rfl, hb.1, hb.2⟩

/-- A candidate carrying a raw vector-search score of `2` (a perfectly
possible ChromaDB distance), for the claim C1 counterexample. -/
def projC1 : Project := ⟨11, none, [], .missing, .null, 2, 0⟩

/-- The all-neutral filter set of the claim C1 counterexample. -/
def filtersC1 : Filters := ⟨none, none, none, none, none⟩

/-- Claim C1 counterexample: with every rule-based component at its
neutral `0.5`, a raw search score of `2` gives a final score of
`1.1 > 1`; the semantic component is not a normalised similarity and
the final score is not confined to `[0, 1]`. -/
theorem final_score_exceeds_one_cex :
    finalScore projC1 filtersC1 = 11/10 ∧ ¬ finalScore projC1 filtersC1 ≤ 1 := by
  have hraw : rawScore projC1 filtersC1 = 11/10 := by
    simp [rawScore, calcLocationScore, calcPriceScore, calcAmenitiesScore,
      calcAvailabilityScore, projC1, filtersC1, strTruthy]
    norm_num
  have h : finalScore projC1 filtersC1 = 11/10 := by
    rw [finalScore, hraw]
    unfold round3
    have hfloor : ⌊(11/10 : ℚ) * 1000 + 1/2⌋ = 1100 := by
      rw [Int.floor_eq_iff]
      norm_num
    rw [hfloor]
    norm_num
  refine ⟨h, by rw [h]; norm_num⟩

/-- A candidate with a raw search score of `1/2`, for the claim C1 witness. -/
def projC1w : Project := ⟨12, none, [], .missing, .null, 1/2, 0⟩

/-- Witness for the amended claim C1: with a raw search score in `[0, 1]`
the final score lies in `[0, 1]` at a concrete candidate. -/
theorem final_score_formula_and_bounds_witness :
    0 ≤ projC1w.search_score ∧ projC1w.search_score ≤ 1
    ∧ 0 ≤ finalScore projC1w ⟨none, none, none, none, none⟩
    ∧ finalScore projC1w ⟨none, none, none, none, none⟩ ≤ 1 :=
  ⟨by norm_num [projC1w], by norm_num [projC1w],
   (final_score_formula_and_bounds projC1w ⟨none, none, none, none, none⟩
      (by norm_num [projC1w]) (by norm_num [projC1w])).2.1,
   (final_score_formula_and_bounds projC1w ⟨none, none, none, none, none⟩
      (by norm_num [projC1w]) (by norm_num [projC1w])).2.2⟩

/-! ### Claim C4: ordering, rounding and truncation of the ranked output -/

theorem filter_orderedInsert_rank_ne (x : Scored) (l : List Scored) (v : ℚ)
    (hx : x.final_score ≠ v) :
    (List.orderedInsert rankLE x l).filter (fun s => decide (s.final_score = v))
      = l.filter (fun s => decide (s.final_score = v)) := by
  induction l with
  | nil => simp [hx]
  | cons y ys ih =>
    rw [List.orderedInsert]
    split
    · simp [List.filter_cons, hx]
    · simp only [List.filter_cons, ih]

theorem filter_orderedInsert_rank_eq (x : Scored) (l : List Scored) (v : ℚ)
    (hx : x.final_score = v) :
    (List.orderedInsert rankLE x l).filter (fun s => decide (s.final_score = v))
      = x :: l.filter (fun s => decide (s.final_score = v)) := by
  induction l with
  | nil => simp [hx]
  | cons y ys ih =>
    rw [List.orderedInsert]
    split
    · simp [List.filter_cons, hx]
    · rename_i hr
      have hy : ¬ y.final_score = v := by
        intro hyv
        exact hr (le_of_eq (hyv.trans hx.symm))
      simp [List.filter_cons, hy, ih]

/-- Stability of the ranking sort: for every score value, the candidates
carrying that score appear in the sorted output exactly in their input
order. -/
theorem rank_sort_filter_stable (l : List Scored) (v : ℚ) :
    (List.insertionSort rankLE l).filter (fun s => decide (s.final_score = v))
      = l.filter (fun s => decide (s.final_score = v)) := by
  induction l with
  | nil => rfl
  | cons x xs ih =>
    rw [List.insertionSort]
    by_cases hx : x.final_score = v
    · rw [filter_orderedInsert_rank_eq x _ v hx, ih]
      simp [List.filter_cons, hx]
    · rw [filter_orderedInsert_rank_ne x _ v hx, ih]
      simp [List.filter_cons, hx]

/-- Claim C4 amended: the ranked output is sorted by `final_score`
descending; it is a permutation of the candidate set with each
`final_score` set to the 3-decimal-rounded weighted score; equal
scores keep their input (hydration) order — the Python sort is stable,
there is no ascending-id tie-break; and the length equals the input
length — the ranker itself truncates nothing (the bound `max_results`
holds only because the upstream k-NN call already returns at most that
many candidates). -/
theorem rank_projects_sorted_rounded (projects : List Project) (f : Filters) :
    List.Sorted rankLE (rankProjects projects f)
    ∧ List.Perm ((rankProjects projects f).map Scored.proj) projects
    ∧ (rankProjects projects f).length = projects.length
    ∧ (∀ s ∈ rankProjects projects f, s.final_score = finalScore s.proj f)
    ∧ (∀ v : ℚ, (rankProjects projects f).filter (fun s => decide (s.final_score = v))
        = (projects.map fun p => ⟨p, finalScore p f⟩).filter
            (fun s => decide (s.final_score = v))) := by
  have hperm : List.Perm
      (List.insertionSort rankLE (projects.map fun p => ⟨p, finalScore p f⟩))
      (projects.map fun p => ⟨p, finalScore p f⟩) := List.perm_insertionSort _ _
  refine ⟨List.sorted_insertionSort rankLE _, ?_, ?_, ?_, fun v => rank_sort_filter_stable _ v⟩
  · have h := hperm.map Scored.proj
    simpa [List.map_map, Function.comp_def] using h
  · have h1 := hperm.length_eq
    rw [List.length_map] at h1
    exact h1
  · intro s hs
    have hmem : s ∈ projects.map fun p => ⟨p, finalScore p f⟩ := hperm.mem_iff.mp hs
    simp only [List.mem_map] at hmem
    rcases hmem with ⟨p, _, rfl⟩
    rfl

/-- First candidate of the claim C4 counterexample (id 5). -/
def projC4hi : Project := ⟨5, none, [], .missing, .null, 1, 0⟩

/-- Second candidate of the claim C4 counterexample (id 2). -/
def projC4lo : Project := ⟨2, none, [], .missing, .null, 1, 0⟩

/-- The all-neutral filter set of the claim C4 counterexample. -/
def filtersC4 : Filters := ⟨none, none, none, none, none⟩

theorem finalScore_projC4 (i : ℤ) :
    finalScore ⟨i, none, [], .missing, .null, 1, 0⟩ filtersC4 = 7/10 := by
  have hraw : rawScore ⟨i, none, [], .missing, .null, 1, 0⟩ filtersC4 = 7/10 := by
    norm_num [rawScore, calcLocationScore, calcPriceScore, calcAmenitiesScore,
      calcAvailabilityScore, strTruthy, filtersC4]
  rw [finalScore, hraw]
  unfold round3
  have hfloor : ⌊(7/10 : ℚ) * 1000 + 1/2⌋ = 700 := by
    rw [Int.floor_eq_iff]
    norm_num
  rw [hfloor]
  norm_num

/-- Claim C4 counterexample: two candidates with equal final scores keep
their input order — ids `[5, 2]`, not the claimed ascending-id order
`[2, 5]`. -/
theorem rank_tiebreak_input_order_cex :
    ((rankProjects [projC4hi, projC4lo] filtersC4).map fun s => s.proj.id) = [5, 2]
    ∧ finalScore projC4hi filtersC4 = finalScore projC4lo filtersC4 := by
  have h5 := finalScore_projC4 5
  have h2 := finalScore_projC4 2
  constructor
  · simp only [rankProjects, projC4hi, projC4lo, List.map_cons, List.map_nil, h5, h2,
      List.insertionSort, List.orderedInsert_nil]
    rw [List.orderedInsert_of_le rankLE _ (by exact le_refl _)]
    rfl
  · exact h5.trans h2.symm

/-- The candidate of the claim C4 witness. -/
def projC4w : Project := ⟨1, none, [], .missing, .null, 0, 0⟩

/-- The filter set of the claim C4 witness. -/
def filtersC4w : Filters := ⟨none, none, none, none, none⟩

/-- Witness for the amended claim C4: at a singleton candidate list, the
ranked entry is a member of the output and carries the rounded
weighted score. -/
theorem rank_projects_sorted_rounded_witness :
    (⟨projC4w, finalScore projC4w filtersC4w⟩ : Scored) ∈ rankProjects [projC4w] filtersC4w
    ∧ (⟨projC4w, finalScore projC4w filtersC4w⟩ : Scored).final_score
        = finalScore projC4w filtersC4w := by
  have hmem : (⟨projC4w, finalScore projC4w filtersC4w⟩ : Scored)
      ∈ rankProjects [projC4w] filtersC4w := by
    simp [rankProjects, List.insertionSort, List.orderedInsert]
  exact ⟨hmem, (rank_projects_sorted_rounded [projC4w] filtersC4w).2.2.2.1 _ hmem⟩
